import Mathlib

/-!
Verification model of `src/main.py` (YouTube Audio Streamer).

The Python program is a single tkinter class `YouTubeAudioStreamer`.  This file
gives a shallow embedding of the parts the specification's claims talk about:

* `is_valid_youtube_url` — the regex check on URLs;
* the persisted URL store: `load_saved_urls`, `save_urls_to_file`,
  `save_current_url`, `delete_selected_url`, `load_selected_url`, together with
  a faithful model of Python's `json.dump` / `json.load` on the backing file;
* the playback controller: `toggle_playback`, `stop_playback`,
  `start_playback` (the background-thread body, modelled as one atomic step
  that fires when the thread's work arrives), `set_volume`,
  `update_ui_playing`, `show_error`, `flash_status`.

GUI widgets are modelled as the fields of `AppState` they carry (entry text,
combobox selection, dropdown values, status line, button state); dialogs and
native VLC calls are modelled as event logs so that claims about "a dialog is
shown" or "the handle receives audio_set_volume" are statements about those
logs.  Blocking dialog answers (the name prompt, the yes/no confirmation) and
file-write failures are inputs to the corresponding functions.
-/

/-- The set of characters stripped by Python's `str.strip()` with no
arguments: exactly the characters for which `str.isspace()` holds
(`\t \n \v \f \r`, `\x1c`–`\x1f`, space, NEL, NBSP, and the Unicode space
separators). -/
def pyIsSpaceChar (c : Char) : Bool :=
  let n := c.toNat
  (9 ≤ n && n ≤ 13) || (28 ≤ n && n ≤ 31) || n == 32 || n == 133 || n == 160 ||
    n == 5760 || (8192 ≤ n && n ≤ 8202) || n == 8232 || n == 8233 ||
    n == 8239 || n == 8287 || n == 12288

/-- Python's `s.strip()`: drop leading and trailing whitespace. -/
def pyStrip (s : String) : String :=
  (((s.toList.dropWhile pyIsSpaceChar).reverse.dropWhile pyIsSpaceChar).reverse).asString

/-- The alternatives the group `(https?://)?` of the validation regex can
consume. -/
def schemeForms : List String := ["", "http://", "https://"]

/-- The alternatives the group `(www\.)?` can consume. -/
def wwwForms : List String := ["", "www."]

/-- The alternatives the group `(youtube\.com|youtu\.?be)` can consume: the
first branch gives `youtube.com`; the second, with its optional dot, gives
`youtu.be` or `youtube`. -/
def hostForms : List String := ["youtube.com", "youtu.be", "youtube"]

/-- All strings the regex can consume before the mandatory `/`. -/
def urlForms : List String :=
  schemeForms.flatMap fun a => wwwForms.flatMap fun b => hostForms.map fun c => a ++ b ++ c

/-- `is_valid_youtube_url` of `main.py`:
`bool(re.match(r'(https?://)?(www\.)?(youtube\.com|youtu\.?be)/.+', url))`.
`re.match` anchors at the start only, so the regex matches iff some choice of
the three groups, followed by `/`, is a prefix of the input and at least one
further character follows that is not a newline (`.` never matches `\n`,
and `+` needs one character). -/
def is_valid_youtube_url (s : String) : Bool :=
  urlForms.any fun p =>
    let cs := s.toList
    let pre := p.toList ++ [Char.ofNat 47]
    pre.isPrefixOf cs &&
      (match cs.drop pre.length with
       | c :: _ => c.toNat != 10
       | [] => false)

/-- Does `nd` occur as a contiguous run inside the second list. -/
def listHasInfix (nd : List Char) : List Char → Bool
  | [] => nd.isPrefixOf []
  | c :: r => nd.isPrefixOf (c :: r) || listHasInfix nd r

/-- Python's substring test `sub in s` on strings. -/
def pyInStr (sub s : String) : Bool :=
  listHasInfix sub.toList s.toList

/-- Python's `list.remove` on the success path: delete the first occurrence. -/
def pyListRemove (l : List String) (x : String) : List String :=
  match l with
  | [] => []
  | a :: r => if a = x then r else a :: pyListRemove r x

/-- Helper for Python's `s.split(sep, 1)`: split `cs` around the first
occurrence of `sep`, if any. -/
def splitFirstAux (sep : List Char) : List Char → Option (List Char × List Char)
  | [] => none
  | c :: rest =>
    if sep.isPrefixOf (c :: rest) then some ([], (c :: rest).drop sep.length)
    else
      match splitFirstAux sep rest with
      | some (a, b) => some (c :: a, b)
      | none => none

/-! ## A model of Python's `json` module

`load_saved_urls` calls `json.load` and `save_urls_to_file` calls
`json.dump(self.saved_urls, f)` with default options (`ensure_ascii=True`,
separator `", "`).  The parser below follows CPython's scanner: JSON values
are `null`, `true`, `false`, numbers (kept as their lexeme — the program
never computes with them), `NaN`/`Infinity`/`-Infinity`, strings, arrays and
objects.  Decoded strings are lists of Unicode code points (`List Nat`)
because `\uXXXX` escapes can denote lone surrogates, which Python strings
admit. -/

inductive PyJson where
  | null : PyJson
  | bool : Bool → PyJson
  | num : String → PyJson
  | str : List Nat → PyJson
  | arr : List PyJson → PyJson
  | obj : List (List Nat × PyJson) → PyJson

/-- JSON whitespace (space, tab, newline, carriage return). -/
def isJsonWs (c : Char) : Bool :=
  c.toNat == 32 || c.toNat == 9 || c.toNat == 10 || c.toNat == 13

/-- Skip JSON whitespace. -/
def skipWs (cs : List Char) : List Char :=
  cs.dropWhile isJsonWs

/-- Value of one hexadecimal digit. -/
def hexVal (c : Char) : Option Nat :=
  let n := c.toNat
  if 48 ≤ n ∧ n ≤ 57 then some (n - 48)
  else if 97 ≤ n ∧ n ≤ 102 then some (n - 87)
  else if 65 ≤ n ∧ n ≤ 70 then some (n - 55)
  else none

/-- Parse exactly four hex digits (the `XXXX` of a `\uXXXX` escape). -/
def parseHex4 : List Char → Option (Nat × List Char)
  | a :: b :: c :: d :: rest =>
    match hexVal a, hexVal b, hexVal c, hexVal d with
    | some x, some y, some z, some w => some (x * 4096 + y * 256 + z * 16 + w, rest)
    | _, _, _, _ => none
  | _ => none

/-- The single-character escapes of a JSON string
(`\" \\ \/ \b \f \n \r \t`), mapped to their code points. -/
def escCode (e : Char) : Option Nat :=
  let n := e.toNat
  if n = 34 then some 34
  else if n = 92 then some 92
  else if n = 47 then some 47
  else if n = 98 then some 8
  else if n = 102 then some 12
  else if n = 110 then some 10
  else if n = 114 then some 13
  else if n = 116 then some 9
  else none

/-- Body of a JSON string, positioned just after the opening quote, following
CPython's `scanstring` in strict mode: a raw control character (code < 0x20)
is an error; `\uXXXX` gives a code point, with a high surrogate joined to an
immediately following low-surrogate escape.  Returns the code points and the
input after the closing quote.  Each step consumes at least one character, so
fuel `length + 1` always suffices. -/
def parseStrBody : Nat → List Char → Option (List Nat × List Char)
  | 0, _ => none
  | _ + 1, [] => none
  | f + 1, c :: rest =>
    if c.toNat = 34 then some ([], rest)
    else if c.toNat = 92 then
      match rest with
      | [] => none
      | e :: rest2 =>
        if e.toNat = 117 then
          match parseHex4 rest2 with
          | none => none
          | some (n, rest3) =>
            if 55296 ≤ n ∧ n ≤ 56319 then
              match rest3 with
              | a :: b :: rest4 =>
                if a.toNat = 92 ∧ b.toNat = 117 then
                  match parseHex4 rest4 with
                  | none => none
                  | some (n2, rest5) =>
                    if 56320 ≤ n2 ∧ n2 ≤ 57343 then
                      (parseStrBody f rest5).map
                        (fun p => ((65536 + (n - 55296) * 1024 + (n2 - 56320)) :: p.1, p.2))
                    else
                      (parseStrBody f rest3).map (fun p => (n :: p.1, p.2))
                else (parseStrBody f rest3).map (fun p => (n :: p.1, p.2))
              | _ => (parseStrBody f rest3).map (fun p => (n :: p.1, p.2))
            else (parseStrBody f rest3).map (fun p => (n :: p.1, p.2))
        else
          match escCode e with
          | some m => (parseStrBody f rest2).map (fun p => (m :: p.1, p.2))
          | none => none
    else if c.toNat < 32 then none
    else (parseStrBody f rest).map (fun p => (c.toNat :: p.1, p.2))

/-- Is `c` an ASCII digit. -/
def isDigitChar (c : Char) : Bool :=
  48 ≤ c.toNat && c.toNat ≤ 57

/-- The number grammar of CPython's scanner,
`(-?(?:0|[1-9]\d*))(\.\d+)?([eE][-+]?\d+)?`, returning the lexeme. -/
def parseNum (cs : List Char) : Option (List Char × List Char) :=
  let (sign, cs1) :=
    match cs with
    | c :: r => if c.toNat = 45 then ([c], r) else (([] : List Char), cs)
    | [] => ([], cs)
  match cs1 with
  | [] => none
  | c :: r =>
    if c.toNat = 48 then some (sign ++ [c], r)
    else if 49 ≤ c.toNat ∧ c.toNat ≤ 57 then
      let (ds, r') := r.span isDigitChar
      some (sign ++ c :: ds, r')
    else none

/-- Optional fraction part `(\.\d+)?`. -/
def parseFrac (cs : List Char) : List Char × List Char :=
  match cs with
  | c :: r =>
    if c.toNat = 46 then
      match r with
      | d :: _ =>
        if isDigitChar d then
          let (ds, r') := r.span isDigitChar
          (c :: ds, r')
        else ([], cs)
      | [] => ([], cs)
    else ([], cs)
  | [] => ([], cs)

/-- Optional exponent part `([eE][-+]?\d+)?`. -/
def parseExp (cs : List Char) : List Char × List Char :=
  match cs with
  | c :: r =>
    if c.toNat = 101 ∨ c.toNat = 69 then
      let (sgn, r1) :=
        match r with
        | d :: r' => if d.toNat = 43 ∨ d.toNat = 45 then ([d], r') else (([] : List Char), r)
        | [] => ([], r)
      match r1 with
      | d :: _ =>
        if isDigitChar d then
          let (ds, r2) := r1.span isDigitChar
          (c :: sgn ++ ds, r2)
        else ([], cs)
      | [] => ([], cs)
    else ([], cs)
  | [] => ([], cs)

/-- Full number lexeme: integer part, then optional fraction and exponent. -/
def parseNumber (cs : List Char) : Option (List Char × List Char) :=
  match parseNum cs with
  | none => none
  | some (intPart, r) =>
    let (fracPart, r1) := parseFrac r
    let (expPart, r2) := parseExp r1
    some (intPart ++ fracPart ++ expPart, r2)

/-- Consume a literal word if it is a prefix of the input. -/
def stripLit (lit : List Char) (cs : List Char) : Option (List Char) :=
  if lit.isPrefixOf cs then some (cs.drop lit.length) else none

mutual

/-- One JSON value, positioned at its first character (whitespace already
skipped by the caller), following CPython's `_scan_once`. -/
def parseVal : Nat → List Char → Option (PyJson × List Char)
  | 0, _ => none
  | f + 1, cs =>
    match cs with
    | [] => none
    | c :: rest =>
      if c.toNat = 34 then
        (parseStrBody (rest.length + 1) rest).map (fun p => (.str p.1, p.2))
      else if c.toNat = 123 then
        match skipWs rest with
        | d :: rest2 =>
          if d.toNat = 125 then some (.obj [], rest2)
          else if d.toNat = 34 then parseObjItems f rest2 []
          else none
        | [] => none
      else if c.toNat = 91 then
        match skipWs rest with
        | d :: rest2 =>
          if d.toNat = 93 then some (.arr [], rest2)
          else parseArrItems f (d :: rest2) []
        | [] => none
      else
        match stripLit "null".toList cs with
        | some r => some (.null, r)
        | none =>
        match stripLit "true".toList cs with
        | some r => some (.bool true, r)
        | none =>
        match stripLit "false".toList cs with
        | some r => some (.bool false, r)
        | none =>
        match parseNumber cs with
        | some (lex, r) => some (.num lex.asString, r)
        | none =>
        match stripLit "NaN".toList cs with
        | some r => some (.num "NaN", r)
        | none =>
        match stripLit "Infinity".toList cs with
        | some r => some (.num "Infinity", r)
        | none =>
        match stripLit "-Infinity".toList cs with
        | some r => some (.num "-Infinity", r)
        | none => none

/-- Array elements, positioned at the first character of the next value;
after each value, whitespace then `]` or `,` (whitespace-tolerant), with no
trailing comma allowed. -/
def parseArrItems : Nat → List Char → List PyJson → Option (PyJson × List Char)
  | 0, _, _ => none
  | f + 1, cs, acc =>
    match parseVal f cs with
    | none => none
    | some (v, r) =>
      match skipWs r with
      | d :: r2 =>
        if d.toNat = 93 then some (.arr (acc ++ [v]), r2)
        else if d.toNat = 44 then parseArrItems f (skipWs r2) (acc ++ [v])
        else none
      | [] => none

/-- Object members, positioned just after the opening quote of the next key. -/
def parseObjItems : Nat → List Char → List (List Nat × PyJson) →
    Option (PyJson × List Char)
  | 0, _, _ => none
  | f + 1, cs, acc =>
    match parseStrBody (cs.length + 1) cs with
    | none => none
    | some (k, r) =>
      match skipWs r with
      | d :: r2 =>
        if d.toNat = 58 then
          match parseVal f (skipWs r2) with
          | none => none
          | some (v, r3) =>
            match skipWs r3 with
            | e :: r4 =>
              if e.toNat = 125 then some (.obj (acc ++ [(k, v)]), r4)
              else if e.toNat = 44 then
                match skipWs r4 with
                | q :: r5 =>
                  if q.toNat = 34 then parseObjItems f r5 (acc ++ [(k, v)])
                  else none
                | [] => none
              else none
            | [] => none
        else none
      | [] => none

end

/-- `json.load` / `json.loads` on a whole document: reject a leading BOM,
skip whitespace, read one value, then require only whitespace to follow.
The fuel `2·length + 4` dominates the recursion depth (every value and every
element step consumes at least one input character). -/
def pyJsonParse (s : String) : Option PyJson :=
  let cs := s.toList
  let bom : Bool :=
    match cs with
    | c :: _ => c.toNat == 65279
    | [] => false
  if bom then none
  else
    match parseVal (2 * cs.length + 4) (skipWs cs) with
    | some (v, r) => if skipWs r = [] then some v else none
    | none => none

/-! ## The `json.dump` side (default options: `ensure_ascii=True`,
item separator `", "`) -/

/-- One lowercase hexadecimal digit. -/
def hexDig (n : Nat) : Char :=
  if n < 10 then Char.ofNat (48 + n) else Char.ofNat (87 + n)

/-- Four lowercase hex digits, as in `'\u{0:04x}'.format(n)`. -/
def hex4 (n : Nat) : List Char :=
  [hexDig (n / 4096 % 16), hexDig (n / 256 % 16), hexDig (n / 16 % 16), hexDig (n % 16)]

/-- Encoding of one character by `json`'s ASCII string encoder: `"` and `\`
and the five named control characters get two-character escapes, other
characters in the printable ASCII range `0x20`–`0x7e` stand for themselves,
everything else becomes `\uXXXX` escapes (a surrogate pair for code points
beyond the BMP). -/
def encChar (c : Char) : List Char :=
  let n := c.toNat
  if n = 34 then [Char.ofNat 92, Char.ofNat 34]
  else if n = 92 then [Char.ofNat 92, Char.ofNat 92]
  else if n = 8 then [Char.ofNat 92, 'b']
  else if n = 9 then [Char.ofNat 92, 't']
  else if n = 10 then [Char.ofNat 92, 'n']
  else if n = 12 then [Char.ofNat 92, 'f']
  else if n = 13 then [Char.ofNat 92, 'r']
  else if 32 ≤ n ∧ n ≤ 126 then [c]
  else if n < 65536 then Char.ofNat 92 :: 'u' :: hex4 n
  else
    Char.ofNat 92 :: 'u' :: hex4 (55296 + (n - 65536) / 1024) ++
      Char.ofNat 92 :: 'u' :: hex4 (56320 + (n - 65536) % 1024)

/-- Encoded body of a string (no quotes). -/
def encStrBody (cs : List Char) : List Char :=
  (cs.map encChar).flatten

/-- A JSON string literal, quotes included. -/
def encString (s : String) : List Char :=
  Char.ofNat 34 :: encStrBody s.toList ++ [Char.ofNat 34]

/-- The `", "`-separated items of `json.dump` on a list of strings. -/
def dumpItems : List String → List Char
  | [] => []
  | [x] => encString x
  | x :: y :: xs => encString x ++ Char.ofNat 44 :: Char.ofNat 32 :: dumpItems (y :: xs)

/-- Whole document produced by `json.dump(l, f)` for a list of strings. -/
def dumpList (l : List String) : List Char :=
  Char.ofNat 91 :: dumpItems l ++ [Char.ofNat 93]

/-- `json.dump(self.saved_urls, f)` as a string. -/
def pyJsonDumpStrings (l : List String) : String :=
  (dumpList l).asString

/-- The code points of a Lean string, for comparing with parsed JSON
strings. -/
def pyCodes (s : String) : List Nat :=
  s.toList.map Char.toNat

/-- The `PyJson` value denoting a Python list of `str`s. -/
def jsonOfStrings (l : List String) : PyJson :=
  .arr (l.map fun s => .str (pyCodes s))

/-- `load_saved_urls` of `main.py`, as a function of the backing file's
content (`none` = the file does not exist).  Returns the value bound to
`self.saved_urls` and whether the `except` branch printed its
`"Error loading saved URLs"` warning.  The whole body runs under
`try/except Exception`, so no exception ever escapes to the caller; on any
parse failure the handler prints the warning and leaves `saved_urls = []`. -/
def load_saved_urls (file : Option String) : PyJson × Bool :=
  match file with
  | none => (.arr [], false)
  | some content =>
    match pyJsonParse content with
    | some v => (v, false)
    | none => (.arr [], true)

/-! ## The application state and its event handlers -/

/-- Severity passed to `flash_status`. -/
inductive Level where
  | info | success | error
  deriving Repr, DecidableEq

/-- The glyph on the play/stop button (`"▶"` or `"■"`). -/
inductive Glyph where
  | play | stop
  deriving Repr, DecidableEq

/-- A call into the native VLC handle (handles are numbered as they are
created). -/
inductive NativeCall where
  | audio_set_volume : Nat → Nat → NativeCall
  | play : Nat → NativeCall
  | stopPlayer : Nat → NativeCall
  deriving Repr, DecidableEq

/-- A blocking message box shown to the user. -/
inductive DialogEvent where
  | errorBox : String → String → DialogEvent
  | infoBox : String → String → DialogEvent
  deriving Repr, DecidableEq

/-- The mutable state of `YouTubeAudioStreamer`, plus event logs for native
calls and dialogs.  `fileContent` is the content of `saved_urls.json`
(`none` = absent); `inFlight`/`pendingUrl` record a dispatched
`start_playback` thread whose result has not arrived yet; `nextHandle`
numbers the VLC objects created so far. -/
structure AppState where
  url_var : String
  is_playing : Bool
  player : Option Nat
  media : Option Nat
  volume_var : Nat
  saved_urls : List String
  fileContent : Option String
  saved_urls_var : String
  dropdown_values : List String
  status_var : String
  statusLevel : Level
  playGlyph : Glyph
  buttonEnabled : Bool
  inFlight : Bool
  pendingUrl : Option String
  nextHandle : Nat
  nativeCalls : List NativeCall
  dialogs : List DialogEvent
  deriving Repr, DecidableEq

/-- `flash_status(message, level)`: sets the status text and its colour (the
3-second colour reset timer has no observable effect on any other state and
is omitted). -/
def flash_status (s : AppState) (msg : String) (lvl : Level) : AppState :=
  { s with status_var := msg, statusLevel := lvl }

/-- `flash_status(msg, "error")` followed by `messagebox.showerror("Error", msg)`,
the validation-failure pattern of `toggle_playback` and `save_current_url`. -/
def reportError (s : AppState) (msg : String) : AppState :=
  let s1 := flash_status s msg .error
  { s1 with dialogs := s1.dialogs ++ [.errorBox "Error" msg] }

/-- `stop_playback`: only acts when a player handle exists. -/
def stop_playback (s : AppState) : AppState :=
  match s.player with
  | some h =>
    { s with nativeCalls := s.nativeCalls ++ [.stopPlayer h],
             player := none, media := none, is_playing := false,
             playGlyph := .play, status_var := "Stopped", statusLevel := .info }
  | none => s

/-- `toggle_playback`: stop if playing; otherwise validate the stripped URL
and either report a validation error or dispatch the background thread
running `start_playback`. -/
def toggle_playback (s : AppState) : AppState :=
  let url := pyStrip s.url_var
  if s.is_playing then stop_playback s
  else if url = "" then reportError s "Please enter a YouTube URL"
  else if ¬ is_valid_youtube_url url then reportError s "Invalid YouTube URL"
  else
    { s with status_var := "Loading stream...", buttonEnabled := false,
             inFlight := true, pendingUrl := some url }

/-- `update_ui_playing(title)`. -/
def update_ui_playing (s : AppState) (title : Option String) : AppState :=
  { s with playGlyph := .stop,
           status_var := (match title with
                          | some t => "Playing: " ++ t
                          | none => "Playing"),
           statusLevel := .success,
           is_playing := true }

/-- `show_error(error_msg)`. -/
def show_error (s : AppState) (msg : String) : AppState :=
  let s1 := flash_status s ("Error: " ++ msg) .error
  let s2 := { s1 with dialogs := s1.dialogs ++
                        [DialogEvent.errorBox "Error" ("Failed to play stream: " ++ msg)] }
  { s2 with is_playing := false, playGlyph := .play }

/-- Result of the background thread's work: either the resolved title (the
resolver and the native attach succeeded, yielding a fresh player and media
object), or the message of the exception `start_playback` caught. -/
inductive BgOutcome where
  | success : String → BgOutcome
  | failure : String → BgOutcome
  deriving Repr, DecidableEq

/-- The body of `start_playback` (the function run on the background
thread), modelled as one atomic step applied when its result arrives.  On
success it creates the player and media objects, sets the volume from the
slider, starts playback and runs `update_ui_playing`; on failure it runs
`show_error`; the `finally` block re-enables the play button either way. -/
def start_playback (s : AppState) (outcome : BgOutcome) : AppState :=
  match outcome with
  | .success title =>
    let h := s.nextHandle
    let s1 := { s with player := some h, media := some (h + 1), nextHandle := h + 2,
                       nativeCalls := s.nativeCalls ++
                         [.audio_set_volume h s.volume_var, .play h] }
    let s2 := update_ui_playing s1 (some title)
    { s2 with buttonEnabled := true, inFlight := false, pendingUrl := none }
  | .failure msg =>
    let s1 := show_error s msg
    { s1 with buttonEnabled := true, inFlight := false, pendingUrl := none }

/-- `set_volume`: the slider callback reads the slider variable and forwards
it to the native handle only when one exists. -/
def set_volume (s : AppState) : AppState :=
  match s.player with
  | some h =>
    { s with nativeCalls := s.nativeCalls ++ [.audio_set_volume h s.volume_var] }
  | none => s

/-- `update_urls_dropdown`. -/
def update_urls_dropdown (s : AppState) : AppState :=
  if s.saved_urls ≠ [] then { s with dropdown_values := s.saved_urls }
  else { s with dropdown_values := ["No saved URLs"] }

/-- `save_urls_to_file`: `json.dump` of the current list into the backing
file, under `try/except`; a write failure (`writeErr = some e`) leaves the
file as it was and shows an error dialog instead. -/
def save_urls_to_file (s : AppState) (writeErr : Option String) : AppState :=
  match writeErr with
  | none => { s with fileContent := some (pyJsonDumpStrings s.saved_urls) }
  | some e =>
    { s with dialogs := s.dialogs ++ [.errorBox "Error" ("Failed to save URLs: " ++ e)] }

/-- `save_current_url`: validate the stripped URL, prompt for a name
(`nameResp`: `none` = dialog cancelled), build `"{name} - {url}"`, and append
it unless it is already present. -/
def save_current_url (s : AppState) (nameResp : Option String)
    (writeErr : Option String) : AppState :=
  let url := pyStrip s.url_var
  if url = "" then reportError s "Please enter a YouTube URL"
  else if ¬ is_valid_youtube_url url then reportError s "Invalid YouTube URL"
  else
    match nameResp with
    | none => s
    | some name =>
      if name = "" then s
      else
        let entry := name ++ " - " ++ url
        if entry ∈ s.saved_urls then
          let s1 := flash_status s "This URL is already saved" .info
          { s1 with dialogs := s1.dialogs ++ [.infoBox "Info" "This URL is already saved"] }
        else
          let s1 := { s with saved_urls := s.saved_urls ++ [entry] }
          let s2 := save_urls_to_file s1 writeErr
          let s3 := update_urls_dropdown s2
          flash_status s3 ("URL saved as \x27" ++ name ++ "\x27") .success

/-- `load_selected_url`: copy the URL half of the selected `"name - url"`
entry into the URL field; an entry without the `" - "` separator raises
`IndexError`, which the handler swallows (`pass`). -/
def load_selected_url (s : AppState) : AppState :=
  let selected := s.saved_urls_var
  if selected ≠ "" ∧ ¬ pyInStr "No saved URLs" selected then
    match splitFirstAux " - ".toList selected.toList with
    | some (a, b) =>
      let s1 := { s with url_var := b.asString }
      flash_status s1 ("Loaded: " ++ a.asString) .info
    | none => s
  else s

/-- The uncaught Python exception an event handler can raise. -/
inductive PyExn where
  | valueError
  deriving Repr, DecidableEq

/-- `delete_selected_url`: on a non-empty selection not containing
`"No saved URLs"`, and a confirmed yes/no dialog (`confirm`), run
`self.saved_urls.remove(selected)` — which raises an uncaught `ValueError`
when the selection is not in the list — then persist, refresh the dropdown,
flash, and clear the selection. -/
def delete_selected_url (s : AppState) (confirm : Bool)
    (writeErr : Option String) : AppState × Option PyExn :=
  let selected := s.saved_urls_var
  if selected ≠ "" ∧ ¬ pyInStr "No saved URLs" selected then
    if confirm then
      if selected ∈ s.saved_urls then
        let s1 := { s with saved_urls := pyListRemove s.saved_urls selected }
        let s2 := save_urls_to_file s1 writeErr
        let s3 := update_urls_dropdown s2
        let firstPart :=
          match splitFirstAux " - ".toList selected.toList with
          | some (a, _) => a.asString
          | none => selected
        let s4 := flash_status s3 ("Deleted: " ++ firstPart) .info
        ({ s4 with saved_urls_var := "" }, none)
      else (s, some .valueError)
    else (s, none)
  else (flash_status s "No URL selected" .error, none)

/-! ## Round-trip: `json.load` after `json.dump`

Stepping lemmas: parsing the encoder's output for one character consumes the
whole escape and recovers the character's code point. -/

theorem charValid (c : Char) : c.toNat < 55296 ∨ (57343 < c.toNat ∧ c.toNat < 1114112) :=
  c.valid

theorem hexVal_hexDig : ∀ k, k < 16 → hexVal (hexDig k) = some k := by decide

theorem parseHex4_hex4 (n : Nat) (h : n < 65536) (rest : List Char) :
    parseHex4 (hex4 n ++ rest) = some (n, rest) := by
  have h1 : n / 4096 % 16 < 16 := Nat.mod_lt _ (by norm_num)
  have h2 : n / 256 % 16 < 16 := Nat.mod_lt _ (by norm_num)
  have h3 : n / 16 % 16 < 16 := Nat.mod_lt _ (by norm_num)
  have h4 : n % 16 < 16 := Nat.mod_lt _ (by norm_num)
  simp only [hex4, List.cons_append, List.nil_append, parseHex4,
    hexVal_hexDig _ h1, hexVal_hexDig _ h2, hexVal_hexDig _ h3, hexVal_hexDig _ h4]
  have e : n / 4096 % 16 * 4096 + n / 256 % 16 * 256 + n / 16 % 16 * 16 + n % 16 = n := by
    omega
  rw [e]

theorem toNatOf92 : (Char.ofNat 92).toNat = 92 := rfl
theorem toNatOf34 : (Char.ofNat 34).toNat = 34 := rfl
theorem toNatLit_u : ('u').toNat = 117 := rfl
theorem toNatLit_b : ('b').toNat = 98 := rfl
theorem toNatLit_t : ('t').toNat = 116 := rfl
theorem toNatLit_n : ('n').toNat = 110 := rfl
theorem toNatLit_f : ('f').toNat = 102 := rfl
theorem toNatLit_r : ('r').toNat = 114 := rfl

theorem encStrBody_cons (c : Char) (cs : List Char) :
    encStrBody (c :: cs) = encChar c ++ encStrBody cs := by
  simp [encStrBody]

theorem stepEsc2 (c : Char) (e : Char) (henc : encChar c = [Char.ofNat 92, e])
    (hesc : escCode e = some c.toNat) (tail : List Char) (g : Nat) :
    parseStrBody (g + 1) (encChar c ++ tail) =
      (parseStrBody g tail).map (fun p => (c.toNat :: p.1, p.2)) := by
  rw [henc]
  have hu : ¬ e.toNat = 117 := by
    intro h
    simp [escCode, h] at hesc
  simp only [List.cons_append, List.append_eq, List.nil_append, parseStrBody, toNatOf92]
  norm_num
  rw [if_neg hu, hesc]

theorem stepPrintable (c : Char) (h34 : ¬ c.toNat = 34) (h92 : ¬ c.toNat = 92)
    (hpr : 32 ≤ c.toNat) (henc : encChar c = [c]) (tail : List Char) (g : Nat) :
    parseStrBody (g + 1) (encChar c ++ tail) =
      (parseStrBody g tail).map (fun p => (c.toNat :: p.1, p.2)) := by
  rw [henc]
  have hlt : ¬ c.toNat < 32 := by omega
  simp only [List.cons_append, List.append_eq, List.nil_append, parseStrBody,
    if_neg h34, if_neg h92, if_neg hlt]

theorem stepBmp (c : Char) (hbmp : c.toNat < 65536)
    (henc : encChar c = Char.ofNat 92 :: 'u' :: hex4 c.toNat) (tail : List Char) (g : Nat) :
    parseStrBody (g + 1) (encChar c ++ tail) =
      (parseStrBody g tail).map (fun p => (c.toNat :: p.1, p.2)) := by
  rw [henc]
  simp only [List.cons_append, List.append_eq, List.nil_append, List.append_assoc,
    parseStrBody, toNatOf92, toNatLit_u]
  norm_num
  rw [parseHex4_hex4 c.toNat hbmp]
  have hns : ¬ (55296 ≤ c.toNat ∧ c.toNat ≤ 56319) := by
    rcases charValid c with h | h <;> omega
  simp only [if_neg hns]


theorem stepPair (hi lo : Nat) (hh : 55296 ≤ hi ∧ hi ≤ 56319)
    (hl : 56320 ≤ lo ∧ lo ≤ 57343) (tail : List Char) (g : Nat) :
    parseStrBody (g + 1)
        (Char.ofNat 92 :: 'u' ::
          (hex4 hi ++ (Char.ofNat 92 :: 'u' :: (hex4 lo ++ tail)))) =
      (parseStrBody g tail).map
        (fun p => ((65536 + (hi - 55296) * 1024 + (lo - 56320)) :: p.1, p.2)) := by
  simp only [parseStrBody, toNatOf92, toNatLit_u]
  norm_num
  rw [parseHex4_hex4 hi (by omega)]
  dsimp only
  rw [if_pos hh]
  simp only [toNatOf92, toNatLit_u]
  norm_num
  rw [parseHex4_hex4 lo (by omega)]
  dsimp only
  rw [if_pos hl]

theorem stepAstral (c : Char) (hbmp : ¬ c.toNat < 65536)
    (henc : encChar c =
      Char.ofNat 92 :: 'u' :: hex4 (55296 + (c.toNat - 65536) / 1024) ++
        Char.ofNat 92 :: 'u' :: hex4 (56320 + (c.toNat - 65536) % 1024))
    (tail : List Char) (g : Nat) :
    parseStrBody (g + 1) (encChar c ++ tail) =
      (parseStrBody g tail).map (fun p => (c.toNat :: p.1, p.2)) := by
  have hup : c.toNat < 1114112 := by
    rcases charValid c with h | h
    · omega
    · exact h.2
  have hdiv : (c.toNat - 65536) / 1024 < 1024 := by omega
  have hmod : (c.toNat - 65536) % 1024 < 1024 := by omega
  rw [henc]
  rw [show (Char.ofNat 92 :: 'u' :: hex4 (55296 + (c.toNat - 65536) / 1024) ++
        Char.ofNat 92 :: 'u' :: hex4 (56320 + (c.toNat - 65536) % 1024)) ++ tail =
      Char.ofNat 92 :: 'u' :: (hex4 (55296 + (c.toNat - 65536) / 1024) ++
        (Char.ofNat 92 :: 'u' :: (hex4 (56320 + (c.toNat - 65536) % 1024) ++ tail))) from by
    simp]
  rw [stepPair (55296 + (c.toNat - 65536) / 1024) (56320 + (c.toNat - 65536) % 1024)
    (by omega) (by omega) tail g]
  cases parseStrBody g tail with
  | none => simp
  | some p =>
    simp only [Option.map_some', Option.some.injEq, Prod.mk.injEq, List.cons.injEq]
    refine ⟨⟨?_, ?_⟩, ?_⟩ <;> first | omega | trivial

/-- Parsing the encoding of one character prepends exactly that character's
code point. -/
theorem parseStrBody_encChar (c : Char) (tail : List Char) (g : Nat) :
    parseStrBody (g + 1) (encChar c ++ tail) =
      (parseStrBody g tail).map (fun p => (c.toNat :: p.1, p.2)) := by
  by_cases h34 : c.toNat = 34
  · exact stepEsc2 c (Char.ofNat 34) (by simp [encChar, h34])
      (by simp [escCode, toNatOf34, h34]) tail g
  by_cases h92 : c.toNat = 92
  · exact stepEsc2 c (Char.ofNat 92) (by simp [encChar, h34, h92])
      (by simp [escCode, toNatOf92, h92]) tail g
  by_cases h8 : c.toNat = 8
  · exact stepEsc2 c 'b' (by simp [encChar, h34, h92, h8])
      (by simp [escCode, toNatLit_b, h8]) tail g
  by_cases h9 : c.toNat = 9
  · exact stepEsc2 c 't' (by simp [encChar, h34, h92, h8, h9])
      (by simp [escCode, toNatLit_t, h9]) tail g
  by_cases h10 : c.toNat = 10
  · exact stepEsc2 c 'n' (by simp [encChar, h34, h92, h8, h9, h10])
      (by simp [escCode, toNatLit_n, h10]) tail g
  by_cases h12 : c.toNat = 12
  · exact stepEsc2 c 'f' (by simp [encChar, h34, h92, h8, h9, h10, h12])
      (by simp [escCode, toNatLit_f, h12]) tail g
  by_cases h13 : c.toNat = 13
  · exact stepEsc2 c 'r' (by simp [encChar, h34, h92, h8, h9, h10, h12, h13])
      (by simp [escCode, toNatLit_r, h13]) tail g
  by_cases hpr : 32 ≤ c.toNat ∧ c.toNat ≤ 126
  · exact stepPrintable c h34 h92 hpr.1
      (by simp [encChar, h34, h92, h8, h9, h10, h12, h13, hpr]) tail g
  by_cases hbmp : c.toNat < 65536
  · exact stepBmp c hbmp
      (by simp [encChar, h34, h92, h8, h9, h10, h12, h13, hpr, hbmp]) tail g
  · exact stepAstral c hbmp
      (by simp [encChar, h34, h92, h8, h9, h10, h12, h13, hpr, hbmp]) tail g

/-- Parsing the encoded body of a string, followed by the closing quote,
recovers exactly its code points. -/
theorem parse_encStrBody (cs : List Char) : ∀ (rest : List Char) (f : Nat),
    cs.length < f →
    parseStrBody f (encStrBody cs ++ Char.ofNat 34 :: rest) =
      some (cs.map Char.toNat, rest) := by
  induction cs with
  | nil =>
    intro rest f hf
    obtain ⟨g, rfl⟩ : ∃ g, f = g + 1 := ⟨f - 1, by omega⟩
    simp [encStrBody, parseStrBody]
  | cons c cs ih =>
    intro rest f hf
    obtain ⟨g, rfl⟩ : ∃ g, f = g + 1 := ⟨f - 1, by omega⟩
    have hg : cs.length < g := by
      simp only [List.length_cons] at hf
      omega
    rw [encStrBody_cons, List.append_assoc, parseStrBody_encChar, ih rest g hg]
    rfl

theorem one_le_encChar_length (c : Char) : 1 ≤ (encChar c).length := by
  simp only [encChar]
  split_ifs <;> simp [hex4]

theorem length_le_encStrBody (cs : List Char) : cs.length ≤ (encStrBody cs).length := by
  induction cs with
  | nil => simp [encStrBody]
  | cons c cs ih =>
    rw [encStrBody_cons, List.length_append]
    have := one_le_encChar_length c
    simp only [List.length_cons]
    omega

theorem parseVal_encString (x : String) (rest : List Char) (f : Nat) :
    parseVal (f + 1) (encString x ++ rest) = some (.str (pyCodes x), rest) := by
  have hshape : encString x ++ rest =
      Char.ofNat 34 :: (encStrBody x.toList ++ Char.ofNat 34 :: rest) := by
    simp [encString]
  rw [hshape]
  simp only [parseVal, toNatOf34]
  norm_num
  exact parse_encStrBody x.toList rest _ (by
    have h := length_le_encStrBody x.toList
    simp only [String.toList] at h ⊢
    omega)

theorem toNatOf91 : (Char.ofNat 91).toNat = 91 := rfl
theorem toNatOf93 : (Char.ofNat 93).toNat = 93 := rfl
theorem toNatOf44 : (Char.ofNat 44).toNat = 44 := rfl

theorem skipWs_quote (t : List Char) : skipWs (Char.ofNat 34 :: t) = Char.ofNat 34 :: t := by
  simp [skipWs, List.dropWhile_cons, isJsonWs]

theorem skipWs_rbracket (t : List Char) : skipWs (Char.ofNat 93 :: t) = Char.ofNat 93 :: t := by
  simp [skipWs, List.dropWhile_cons, isJsonWs]

theorem skipWs_comma (t : List Char) : skipWs (Char.ofNat 44 :: t) = Char.ofNat 44 :: t := by
  simp [skipWs, List.dropWhile_cons, isJsonWs]

theorem skipWs_space (t : List Char) : skipWs (Char.ofNat 32 :: t) = skipWs t := by
  simp [skipWs, List.dropWhile_cons, isJsonWs]

theorem dumpItems_head (x : String) (l : List String) :
    ∃ t, dumpItems (x :: l) = Char.ofNat 34 :: t := by
  cases l with
  | nil => exact ⟨encStrBody x.toList ++ [Char.ofNat 34], rfl⟩
  | cons y ys =>
    exact ⟨(encStrBody x.toList ++ [Char.ofNat 34]) ++
      Char.ofNat 44 :: Char.ofNat 32 :: dumpItems (y :: ys), by simp [dumpItems, encString]⟩

theorem parseArrItems_succ (f : Nat) (cs : List Char) (acc : List PyJson) :
    parseArrItems (f + 1) cs acc =
      match parseVal f cs with
      | none => none
      | some (v, r) =>
        match skipWs r with
        | d :: r2 =>
          if d.toNat = 93 then some (.arr (acc ++ [v]), r2)
          else if d.toNat = 44 then parseArrItems f (skipWs r2) (acc ++ [v])
          else none
        | [] => none := rfl

theorem parseArrItems_dumpItems (l : List String) : ∀ (x : String) (acc : List PyJson)
    (rest : List Char) (f : Nat), 2 * l.length + 1 < f →
    parseArrItems f (dumpItems (x :: l) ++ Char.ofNat 93 :: rest) acc =
      some (.arr (acc ++ (x :: l).map fun s => .str (pyCodes s)), rest) := by
  induction l with
  | nil =>
    intro x acc rest f hf
    obtain ⟨g2, rfl⟩ : ∃ g2, f = g2 + 1 + 1 := ⟨f - 2, by omega⟩
    show parseArrItems (g2 + 1 + 1) (encString x ++ Char.ofNat 93 :: rest) acc = _
    rw [parseArrItems_succ, parseVal_encString x (Char.ofNat 93 :: rest) g2]
    dsimp only
    rw [skipWs_rbracket]
    dsimp only
    simp [toNatOf93]
  | cons y ys ih =>
    intro x acc rest f hf
    obtain ⟨g2, rfl⟩ : ∃ g2, f = g2 + 1 + 1 := ⟨f - 2, by omega⟩
    have hshape : dumpItems (x :: y :: ys) ++ Char.ofNat 93 :: rest =
        encString x ++ (Char.ofNat 44 :: Char.ofNat 32 ::
          (dumpItems (y :: ys) ++ Char.ofNat 93 :: rest)) := by
      simp [dumpItems]
    rw [hshape, parseArrItems_succ, parseVal_encString x _ g2]
    dsimp only
    rw [skipWs_comma]
    dsimp only
    simp only [toNatOf44]
    norm_num
    rw [skipWs_space]
    obtain ⟨t, ht⟩ := dumpItems_head y ys
    rw [ht, List.cons_append, skipWs_quote, ← List.cons_append, ← ht]
    rw [ih y (acc ++ [PyJson.str (pyCodes x)]) rest (g2 + 1) (by
      simp only [List.length_cons] at hf ⊢
      omega)]
    simp

theorem parseVal_succ (f : Nat) (cs : List Char) :
    parseVal (f + 1) cs = parseVal (f + 1) cs := rfl

theorem two_le_encString_length (x : String) : 2 ≤ (encString x).length := by
  simp [encString]

theorem dumpItems_length (l : List String) : 2 * l.length ≤ (dumpItems l).length := by
  induction l with
  | nil => simp [dumpItems]
  | cons x xs ih =>
    cases xs with
    | nil =>
      rw [show dumpItems [x] = encString x from rfl]
      have := two_le_encString_length x
      simp only [List.length_cons, List.length_nil]
      omega
    | cons y ys =>
      have h1 := two_le_encString_length x
      simp only [dumpItems, List.length_append, List.length_cons] at ih ⊢
      omega

theorem parseVal_dumpList (l : List String) (rest : List Char) (f : Nat)
    (hf : 2 * l.length + 2 < f) :
    parseVal f (dumpList l ++ rest) = some (jsonOfStrings l, rest) := by
  obtain ⟨g, rfl⟩ : ∃ g, f = g + 1 := ⟨f - 1, by omega⟩
  have hshape : dumpList l ++ rest =
      Char.ofNat 91 :: (dumpItems l ++ Char.ofNat 93 :: rest) := by
    simp [dumpList]
  rw [hshape]
  simp only [parseVal, toNatOf91]
  norm_num
  cases l with
  | nil =>
    rw [show dumpItems ([] : List String) = [] from rfl]
    rw [List.nil_append, skipWs_rbracket]
    simp [toNatOf93, jsonOfStrings]
  | cons x xs =>
    obtain ⟨t, ht⟩ := dumpItems_head x xs
    rw [ht, List.cons_append, skipWs_quote]
    dsimp only
    simp only [toNatOf34]
    norm_num
    rw [← List.cons_append, ← ht]
    rw [parseArrItems_dumpItems xs x [] rest g (by
      simp only [List.length_cons] at hf ⊢
      omega)]
    simp [jsonOfStrings]

theorem toList_asString (cs : List Char) : cs.asString.toList = cs := rfl

/-- Round-trip of the backing file: parsing the document `json.dump` writes
for a list of strings yields exactly that list, as a JSON array of strings. -/
theorem pyJsonParse_dumpStrings (l : List String) :
    pyJsonParse (pyJsonDumpStrings l) = some (jsonOfStrings l) := by
  unfold pyJsonParse pyJsonDumpStrings
  rw [toList_asString]
  have hshape : dumpList l = Char.ofNat 91 :: (dumpItems l ++ [Char.ofNat 93]) := by
    simp [dumpList]
  rw [hshape]
  simp only [toNatOf91]
  norm_num
  rw [show skipWs (Char.ofNat 91 :: (dumpItems l ++ [Char.ofNat 93])) =
      Char.ofNat 91 :: (dumpItems l ++ [Char.ofNat 93]) from by
    simp [skipWs, List.dropWhile_cons, isJsonWs]]
  rw [← hshape]
  rw [show dumpList l = dumpList l ++ [] from by simp]
  rw [parseVal_dumpList l [] _ (by
    have h1 := dumpItems_length l
    have h2 : (dumpList l).length = (dumpItems l).length + 2 := by
      simp [dumpList]
    try simp only [List.append_nil, List.length_append, List.length_nil, List.length_cons]
    omega)]
  rfl

/-! ## Controller states and a fresh application state -/

/-- The state right after `__init__` (empty store, no file yet), with the URL
field set to `url`. -/
def mkState (url : String) : AppState :=
  { url_var := url, is_playing := false, player := none, media := none,
    volume_var := 100, saved_urls := [], fileContent := none, saved_urls_var := "",
    dropdown_values := ["No saved URLs"], status_var := "Ready", statusLevel := .info,
    playGlyph := .play, buttonEnabled := true, inFlight := false, pendingUrl := none,
    nextHandle := 0, nativeCalls := [], dialogs := [] }

/-- The spec's `Idle`: not playing, no native handle, no background work. -/
def IdleState (s : AppState) : Prop :=
  s.is_playing = false ∧ s.player = none ∧ s.inFlight = false

/-- The spec's `Loading`: a dispatched start attempt whose result has not
arrived (no handle exists yet). -/
def LoadingState (s : AppState) : Prop :=
  s.is_playing = false ∧ s.player = none ∧ s.inFlight = true

/-- The spec's `Playing`, with `h` the live native handle. -/
def PlayingState (s : AppState) (h : Nat) : Prop :=
  s.is_playing = true ∧ s.player = some h

theorem charToNat_inj (a b : Char) (h : a.toNat = b.toNat) : a = b :=
  Char.ext (UInt32.ext h)

theorem pyCodes_inj (a b : String) (h : pyCodes a = pyCodes b) : a = b := by
  have hl : a.toList = b.toList :=
    List.map_injective_iff.mpr (fun x y hxy => charToNat_inj x y hxy) h
  cases a
  cases b
  simp only [String.toList] at hl
  exact congrArg String.mk hl

/-- `jsonOfStrings` is injective: the JSON array determines the list of
strings exactly. -/
theorem jsonOfStrings_inj (l l' : List String) (h : jsonOfStrings l = jsonOfStrings l') :
    l = l' := by
  unfold jsonOfStrings at h
  have harr : l.map (fun s => PyJson.str (pyCodes s)) =
      l'.map (fun s => PyJson.str (pyCodes s)) := by
    injection h
  exact List.map_injective_iff.mpr
    (fun x y hxy => pyCodes_inj x y (by injection hxy)) harr

/-! ## C3 — save/load round-trip -/

/-- C3: for every store state, writing the saved-URL list with
`save_urls_to_file` and parsing the backing file back with
`load_saved_urls` yields exactly the same ordered list of encoded strings —
the JSON array of exactly those strings (which, `jsonOfStrings` being
injective, determines the list), with no warning. -/
theorem save_then_load_roundtrip (s : AppState) :
    load_saved_urls ((save_urls_to_file s none).fileContent) =
      (jsonOfStrings s.saved_urls, false) ∧
    (∀ l' : List String, jsonOfStrings l' = jsonOfStrings s.saved_urls →
      l' = s.saved_urls) := by
  constructor
  · simp [save_urls_to_file, load_saved_urls, pyJsonParse_dumpStrings]
  · exact fun l' h => jsonOfStrings_inj l' s.saved_urls h

/-! ## C4 — load never raises; parse failure gives an empty list -/

/-- C4: for every file content that fails to parse, `load_saved_urls`
returns the empty list and logs its warning; being a total function of the
content, it raises nothing to the caller (the whole body of
`load_saved_urls` runs inside `try/except Exception`). -/
theorem load_parse_failure_empty_and_warns (content : String)
    (h : pyJsonParse content = none) :
    load_saved_urls (some content) = (PyJson.arr [], true) := by
  simp [load_saved_urls, h]

theorem load_parse_failure_empty_and_warns_witness :
    load_saved_urls (some "\x7b") = (PyJson.arr [], true) :=
  load_parse_failure_empty_and_warns "\x7b" rfl

/-! ## C5 — volume control -/

/-- C5: while `Playing` with live handle `h`, the slider callback
`set_volume` sends `audio_set_volume(v)` (the slider value) to exactly that
handle and changes nothing else; while `Idle` or `Loading` (no handle), it
is a complete no-op. -/
theorem set_volume_playing_and_idle :
    (∀ (s : AppState) (v h : Nat), s.volume_var = v → v ≤ 100 →
      PlayingState s h →
      set_volume s = { s with nativeCalls := s.nativeCalls ++ [.audio_set_volume h v] }) ∧
    (∀ s : AppState, IdleState s ∨ LoadingState s → set_volume s = s) := by
  constructor
  · intro s v h hv _ hplay
    rcases hplay with ⟨_, hp⟩
    simp [set_volume, hp, hv]
  · intro s hstate
    have hp : s.player = none := by
      rcases hstate with h | h
      · exact h.2.1
      · exact h.2.1
    simp [set_volume, hp]

/-- A playing state over a fresh store: handle `0` live, slider at `40`. -/
def playingAt40 : AppState :=
  { mkState "x" with is_playing := true, player := some 0, volume_var := 40 }

theorem set_volume_playing_and_idle_witness :
    set_volume playingAt40 =
      { playingAt40 with nativeCalls := playingAt40.nativeCalls ++ [.audio_set_volume 0 40] } :=
  set_volume_playing_and_idle.1 playingAt40 40 0 rfl (by norm_num) ⟨rfl, rfl⟩

/-! ## C7 — stop while loading does not cancel the in-flight start -/

/-- C7 (the code violates the claim): dispatch a start from an idle state,
issue `stop()` while the background work is in flight — it is a no-op,
because `self.player` is still `None` — and let the background result
arrive: the controller transitions to `Playing` and retains the freshly
created native handle.  Nothing discards the superseded in-flight result. -/
theorem stop_during_loading_result_not_discarded :
    (toggle_playback (mkState "https://youtube.com/w")).inFlight = true ∧
    stop_playback (toggle_playback (mkState "https://youtube.com/w")) =
      toggle_playback (mkState "https://youtube.com/w") ∧
    (start_playback (stop_playback (toggle_playback (mkState "https://youtube.com/w")))
        (.success "T")).is_playing = true ∧
    (start_playback (stop_playback (toggle_playback (mkState "https://youtube.com/w")))
        (.success "T")).player = some 0 := by
  refine ⟨rfl, rfl, rfl, rfl⟩

/-! ## C9 — cancelling the name prompt changes nothing -/

/-- C9: with a valid URL in the field, cancelling the name prompt (or
submitting an empty name) makes `save_current_url` return before any
mutation: the state — in particular the list and the backing file — is
exactly unchanged. -/
theorem save_cancelled_prompt_no_mutation (s : AppState) (nameResp : Option String)
    (w : Option String)
    (hne : pyStrip s.url_var ≠ "")
    (hval : is_valid_youtube_url (pyStrip s.url_var) = true)
    (hcancel : nameResp = none ∨ nameResp = some "") :
    save_current_url s nameResp w = s := by
  rcases hcancel with h | h <;>
    simp [save_current_url, hne, hval, h]

theorem save_cancelled_prompt_no_mutation_witness :
    save_current_url (mkState "https://youtu.be/abc") none none =
      mkState "https://youtu.be/abc" :=
  save_cancelled_prompt_no_mutation (mkState "https://youtu.be/abc") none none
    (by decide) (by rfl) (Or.inl rfl)

/-! ## C1 — start with a non-matching URL -/

/-- C1 fails as stated: `toggle_playback` validates the *stripped* URL
field, so the input `" youtube.com/a"` — which does not match the regex
(`re.match` fails on the leading space) — nonetheless dispatches the
background thread. -/
theorem toggle_dispatches_on_padded_url :
    is_valid_youtube_url " youtube.com/a" = false ∧
    (toggle_playback (mkState " youtube.com/a")).inFlight = true ∧
    (toggle_playback (mkState " youtube.com/a")).pendingUrl = some "youtube.com/a" := by
  refine ⟨rfl, rfl, rfl⟩

/-- C1 amended: for every idle state whose URL field *strips* to the empty
string or to a string failing the pattern, `toggle_playback` changes only
the status line (to an error) and shows the validation dialog: in
particular `is_playing` stays `false`, nothing is dispatched, and neither
the player, the store, nor the native-call log changes. -/
theorem toggle_invalid_stripped_url_stays_idle (s : AppState)
    (hplay : s.is_playing = false)
    (hbad : pyStrip s.url_var = "" ∨ is_valid_youtube_url (pyStrip s.url_var) = false) :
    ∃ msg, (msg = "Please enter a YouTube URL" ∨ msg = "Invalid YouTube URL") ∧
      toggle_playback s =
        { s with status_var := msg, statusLevel := .error,
                 dialogs := s.dialogs ++ [.errorBox "Error" msg] } := by
  by_cases hemp : pyStrip s.url_var = ""
  · refine ⟨"Please enter a YouTube URL", Or.inl rfl, ?_⟩
    simp [toggle_playback, hplay, hemp, reportError, flash_status]
  · have hinv : is_valid_youtube_url (pyStrip s.url_var) = false := by
      rcases hbad with h | h
      · exact absurd h hemp
      · exact h
    refine ⟨"Invalid YouTube URL", Or.inr rfl, ?_⟩
    simp [toggle_playback, hplay, hemp, hinv, reportError, flash_status]

theorem toggle_invalid_stripped_url_stays_idle_witness :
    ∃ msg, (msg = "Please enter a YouTube URL" ∨ msg = "Invalid YouTube URL") ∧
      toggle_playback (mkState "nope") =
        { mkState "nope" with
            status_var := msg
            statusLevel := Level.error
            dialogs := (mkState "nope").dialogs ++ [DialogEvent.errorBox "Error" msg] } :=
  toggle_invalid_stripped_url_stays_idle (mkState "nope") rfl (Or.inr rfl)

/-! ## C2 — add then load; duplicate add rejected -/

/-- C2: a successful `save_current_url` (valid URL, confirmed name, encoded
entry not yet present, write succeeds) appends the encoded entry once;
`load_saved_urls` on the written file returns exactly the new list, which
contains the entry exactly once; and repeating the same add is rejected
with the "already saved" info dialog, leaving the list and the file
untouched. -/
theorem add_then_load_once_and_duplicate_rejected (s : AppState) (name : String)
    (hne : pyStrip s.url_var ≠ "")
    (hval : is_valid_youtube_url (pyStrip s.url_var) = true)
    (hname : ¬ name = "")
    (hmem : (name ++ " - " ++ pyStrip s.url_var) ∉ s.saved_urls) :
    (save_current_url s (some name) none).saved_urls =
      s.saved_urls ++ [name ++ " - " ++ pyStrip s.url_var] ∧
    (s.saved_urls ++ [name ++ " - " ++ pyStrip s.url_var]).count
      (name ++ " - " ++ pyStrip s.url_var) = 1 ∧
    load_saved_urls (save_current_url s (some name) none).fileContent =
      (jsonOfStrings (s.saved_urls ++ [name ++ " - " ++ pyStrip s.url_var]), false) ∧
    save_current_url (save_current_url s (some name) none) (some name) none =
      { save_current_url s (some name) none with
          status_var := "This URL is already saved"
          statusLevel := Level.info
          dialogs := (save_current_url s (some name) none).dialogs ++
            [DialogEvent.infoBox "Info" "This URL is already saved"] } := by
  have hfirst : save_current_url s (some name) none =
      { s with saved_urls := s.saved_urls ++ [name ++ " - " ++ pyStrip s.url_var],
               fileContent := some (pyJsonDumpStrings
                 (s.saved_urls ++ [name ++ " - " ++ pyStrip s.url_var])),
               dropdown_values := s.saved_urls ++ [name ++ " - " ++ pyStrip s.url_var],
               status_var := "URL saved as \x27" ++ name ++ "\x27",
               statusLevel := Level.success } := by
    simp [save_current_url, hne, hval, hname, hmem, save_urls_to_file,
      update_urls_dropdown, flash_status]
  refine ⟨by rw [hfirst], ?_, ?_, ?_⟩
  · rw [List.count_append]
    rw [List.count_eq_zero.mpr hmem]
    simp
  · rw [hfirst]
    simp [load_saved_urls, pyJsonParse_dumpStrings]
  · rw [hfirst]
    have hmem2 : (name ++ " - " ++ pyStrip s.url_var) ∈
        s.saved_urls ++ [name ++ " - " ++ pyStrip s.url_var] := by
      simp
    simp [save_current_url, hne, hval, hname, hmem2, flash_status]

theorem add_then_load_once_and_duplicate_rejected_witness :
    (save_current_url (mkState "https://youtu.be/abc") (some "Music") none).saved_urls =
      (mkState "https://youtu.be/abc").saved_urls ++
        ["Music" ++ " - " ++ pyStrip (mkState "https://youtu.be/abc").url_var] :=
  (add_then_load_once_and_duplicate_rejected (mkState "https://youtu.be/abc") "Music"
    (by decide) rfl (by decide) (by decide)).1

/-! ## C6 — deleting an absent entry -/

/-- C6 fails as stated: with an empty store and a non-empty selection, a
confirmed `delete_selected_url` reaches `self.saved_urls.remove(selected)`,
which raises `ValueError` — an uncaught exception, not a `NotFound` error
reported to the user: the state (list, file, dialogs) is returned exactly
unchanged and no dialog is produced. -/
theorem delete_absent_raises_value_error :
    delete_selected_url { mkState "x" with saved_urls_var := "A - youtu.be/x" } true none =
      ({ mkState "x" with saved_urls_var := "A - youtu.be/x" }, some PyExn.valueError) := by
  rfl

/-- C6 amended: a confirmed delete of a non-empty selection not containing
`"No saved URLs"` raises an uncaught `ValueError` when the selection is
absent, leaving the whole state (list and file included) unchanged; when
the selection is present it removes exactly the first occurrence and
persists the new list synchronously; an empty or placeholder selection
only flashes "No URL selected". -/
theorem delete_selected_url_cases (s : AppState) (w : Option String) :
    (s.saved_urls_var ≠ "" → pyInStr "No saved URLs" s.saved_urls_var = false →
      s.saved_urls_var ∉ s.saved_urls →
      delete_selected_url s true w = (s, some PyExn.valueError)) ∧
    (s.saved_urls_var ≠ "" → pyInStr "No saved URLs" s.saved_urls_var = false →
      s.saved_urls_var ∈ s.saved_urls → w = none →
      (delete_selected_url s true w).1.saved_urls = pyListRemove s.saved_urls s.saved_urls_var ∧
      (delete_selected_url s true w).1.fileContent =
        some (pyJsonDumpStrings (pyListRemove s.saved_urls s.saved_urls_var)) ∧
      (delete_selected_url s true w).2 = none) ∧
    (s.saved_urls_var = "" →
      delete_selected_url s true w = (flash_status s "No URL selected" Level.error, none)) := by
  refine ⟨?_, ?_, ?_⟩
  · intro hne hpl hmem
    simp [delete_selected_url, hne, hpl, hmem]
  · intro hne hpl hmem hw
    subst hw
    simp [delete_selected_url, hne, hpl, hmem, save_urls_to_file,
      update_urls_dropdown, flash_status]
    constructor <;> split <;> rfl
  · intro hempty
    simp [delete_selected_url, hempty]

/-- A store holding one entry, with that entry selected in the dropdown. -/
def oneEntrySelected : AppState :=
  { mkState "x" with saved_urls := ["A - youtu.be/x"], saved_urls_var := "A - youtu.be/x" }

theorem delete_selected_url_cases_witness :
    (delete_selected_url oneEntrySelected true none).1.saved_urls =
      pyListRemove oneEntrySelected.saved_urls oneEntrySelected.saved_urls_var :=
  (((delete_selected_url_cases oneEntrySelected none).2.1
    (by decide) (by rfl) (by decide) rfl)).1

/-! ## C8 — file-write failure keeps the in-memory mutation -/

/-- C8: when the backing-file write fails with message `e` during a store
mutation, the error dialog `"Failed to save URLs: ..."` is shown and the
in-memory list keeps the attempted mutation while the file is left as it
was — for an append via `save_current_url` and for a removal via
`delete_selected_url` alike. -/
theorem write_failure_keeps_memory_mutation :
    (∀ (s : AppState) (name e : String),
      pyStrip s.url_var ≠ "" →
      is_valid_youtube_url (pyStrip s.url_var) = true →
      ¬ name = "" →
      (name ++ " - " ++ pyStrip s.url_var) ∉ s.saved_urls →
      (save_current_url s (some name) (some e)).saved_urls =
        s.saved_urls ++ [name ++ " - " ++ pyStrip s.url_var] ∧
      (save_current_url s (some name) (some e)).fileContent = s.fileContent ∧
      (save_current_url s (some name) (some e)).dialogs =
        s.dialogs ++ [.errorBox "Error" ("Failed to save URLs: " ++ e)]) ∧
    (∀ (s : AppState) (e : String),
      s.saved_urls_var ≠ "" →
      pyInStr "No saved URLs" s.saved_urls_var = false →
      s.saved_urls_var ∈ s.saved_urls →
      (delete_selected_url s true (some e)).1.saved_urls =
        pyListRemove s.saved_urls s.saved_urls_var ∧
      (delete_selected_url s true (some e)).1.fileContent = s.fileContent ∧
      (delete_selected_url s true (some e)).1.dialogs =
        s.dialogs ++ [.errorBox "Error" ("Failed to save URLs: " ++ e)] ∧
      (delete_selected_url s true (some e)).2 = none) := by
  constructor
  · intro s name e hne hval hname hmem
    simp [save_current_url, hne, hval, hname, hmem, save_urls_to_file,
      update_urls_dropdown, flash_status]
  · intro s e hne hpl hmem
    simp [delete_selected_url, hne, hpl, hmem, save_urls_to_file,
      update_urls_dropdown, flash_status]
    refine ⟨?_, ?_, ?_⟩ <;> split <;> rfl

theorem write_failure_keeps_memory_mutation_witness :
    (save_current_url (mkState "https://youtu.be/abc") (some "Music") (some "disk full")).saved_urls =
      (mkState "https://youtu.be/abc").saved_urls ++
        ["Music" ++ " - " ++ pyStrip (mkState "https://youtu.be/abc").url_var] :=
  (write_failure_keeps_memory_mutation.1 (mkState "https://youtu.be/abc") "Music" "disk full"
    (by decide) rfl (by decide) (by decide)).1

/-! ## C10 — loading the selected entry into the URL field -/

/-- A stored entry whose name contains the placeholder text, selected in
the dropdown. -/
def placeholderEntrySelected : AppState :=
  { mkState "orig" with
      saved_urls := ["No saved URLs x - https://youtu.be/a"],
      saved_urls_var := "No saved URLs x - https://youtu.be/a" }

/-- C10 fails as stated: this stored entry contains the `" - "` separator
(splitting it yields the URL `https://youtu.be/a`), yet selecting it leaves
the URL field at `"orig"` — `load_selected_url` ignores every selection
containing the substring `"No saved URLs"`. -/
theorem load_selected_url_placeholder_cex :
    splitFirstAux " - ".toList placeholderEntrySelected.saved_urls_var.toList =
      some ("No saved URLs x".toList, "https://youtu.be/a".toList) ∧
    load_selected_url placeholderEntrySelected = placeholderEntrySelected ∧
    (load_selected_url placeholderEntrySelected).url_var = "orig" := by
  refine ⟨rfl, rfl, rfl⟩

/-- C10 amended: for a non-empty selection not containing the placeholder
text `"No saved URLs"`: without the `" - "` separator, `load_selected_url`
is a complete no-op (the `IndexError` from `split(" - ", 1)[1]` is caught
and swallowed); with the separator, the URL field receives exactly the part
after the first `" - "` and the status flashes the name part.  Selections
that are empty or contain the placeholder text are ignored entirely. -/
theorem load_selected_url_cases (s : AppState) :
    (s.saved_urls_var ≠ "" → pyInStr "No saved URLs" s.saved_urls_var = false →
      splitFirstAux " - ".toList s.saved_urls_var.toList = none →
      load_selected_url s = s) ∧
    (∀ a b : List Char, s.saved_urls_var ≠ "" →
      pyInStr "No saved URLs" s.saved_urls_var = false →
      splitFirstAux " - ".toList s.saved_urls_var.toList = some (a, b) →
      load_selected_url s =
        { s with url_var := b.asString, status_var := "Loaded: " ++ a.asString,
                 statusLevel := Level.info }) ∧
    ((s.saved_urls_var = "" ∨ pyInStr "No saved URLs" s.saved_urls_var = true) →
      load_selected_url s = s) := by
  refine ⟨?_, ?_, ?_⟩
  · intro hne hpl hsplit
    have hs2 : splitFirstAux [' ', '-', ' '] s.saved_urls_var.data = none := by
      simpa using hsplit
    simp [load_selected_url, hne, hpl, hs2]
  · intro a b hne hpl hsplit
    have hs2 : splitFirstAux [' ', '-', ' '] s.saved_urls_var.data = some (a, b) := by
      simpa using hsplit
    simp [load_selected_url, hne, hpl, hs2, flash_status]
  · intro hguard
    rcases hguard with h | h <;> simp [load_selected_url, h]

theorem load_selected_url_cases_witness :
    load_selected_url oneEntrySelected =
      { oneEntrySelected with
          url_var := ("youtu.be/x".toList).asString
          status_var := "Loaded: " ++ ("A".toList).asString
          statusLevel := Level.info } :=
  (load_selected_url_cases oneEntrySelected).2.1 "A".toList "youtu.be/x".toList
    (by decide) rfl rfl

theorem save_then_load_roundtrip_witness :
    load_saved_urls ((save_urls_to_file oneEntrySelected none).fileContent) =
      (jsonOfStrings oneEntrySelected.saved_urls, false) ∧
    ["A - youtu.be/x"] = oneEntrySelected.saved_urls :=
  ⟨(save_then_load_roundtrip oneEntrySelected).1,
   (save_then_load_roundtrip oneEntrySelected).2 ["A - youtu.be/x"] rfl⟩
